import Mathlib

/-!
Shallow embedding of the matchmaking / session-relay core of
`src/backend/src/socket.ts` (the `setupSocketHandlers` closure).

Modelling choices:
* A live socket object is identified by a `SockId` (socket identity, distinct
  from the user identity stored on it).  Its mutable fields `userId`,
  `username` and `chatPartnerId` form `SocketSt`; the table `ServerSt.sockets`
  maps each socket identity to its current fields, so aliasing through the
  `userSockets` / `waitingUsers` maps behaves as in JavaScript (both maps
  store references to socket objects, modelled here as `SockId` indirection).
* The JavaScript `Map` (insertion-ordered, `set` replaces in place, `delete`
  removes, `keys()` iterates in insertion order) is modelled by an
  association list with `jsSet` / `jsGet` / `jsDelete`.
* Randomly generated identifiers (`Math.random().toString(36)...`) are
  nondeterministic inputs: each operation that may generate one takes it as
  an argument.
* `socket.emit` / `partnerSocket.emit` are modelled by an emitted-event list
  of `(recipient socket, event)` pairs, in emission order.
* The database calls (`prisma.chatMessage.create`, ...) only affect the
  generated message id and are absorbed into the event payload; they never
  change the matchmaking state.
-/

abbrev UserId := Nat
abbrev SockId := Nat

/-- JavaScript `Map.get`: value at the first (unique) occurrence of the key. -/
def jsGet {α : Type} : List (Nat × α) → Nat → Option α
  | [], _ => none
  | (k', v') :: rest, k => if k' = k then some v' else jsGet rest k

/-- JavaScript `Map.set`: replace in place if the key is present, else append. -/
def jsSet {α : Type} : List (Nat × α) → Nat → α → List (Nat × α)
  | [], k, v => [(k, v)]
  | (k', v') :: rest, k, v =>
      if k' = k then (k, v) :: rest else (k', v') :: jsSet rest k v

/-- JavaScript `Map.delete`: remove the entry with the given key. -/
def jsDelete {α : Type} : List (Nat × α) → Nat → List (Nat × α)
  | [], _ => []
  | (k', v') :: rest, k =>
      if k' = k then jsDelete rest k else (k', v') :: jsDelete rest k

/-- The mutable per-socket fields of the `UserSocket` interface that the
matchmaking core reads and writes (`userId`, `username`, `chatPartnerId`). -/
structure SocketSt where
  userId : Option UserId
  username : Option String
  chatPartnerId : Option UserId
deriving DecidableEq

/-- A freshly connected socket: all fields `undefined`. -/
def SocketSt.fresh : SocketSt := ⟨none, none, none⟩

/-- The shared mutable state of `setupSocketHandlers`:
the socket objects, `userSockets` and `waitingUsers`. -/
structure ServerSt where
  sockets : List (SockId × SocketSt)
  userSockets : List (UserId × SockId)
  waitingUsers : List (UserId × SockId)
deriving DecidableEq

def initSt : ServerSt := ⟨[], [], []⟩

/-- Read a socket object's fields (a socket that never had a field assigned
reads as all-`undefined`). -/
def getSock (st : ServerSt) (s : SockId) : SocketSt :=
  (jsGet st.sockets s).getD SocketSt.fresh

/-- Mutate a socket object's fields. -/
def updSock (st : ServerSt) (s : SockId) (f : SocketSt → SocketSt) : ServerSt :=
  { st with sockets := jsSet st.sockets s (f (getSock st s)) }

/-- Events emitted to a client socket (`socket.emit` payloads relevant to the
matchmaking core; message ids and timestamps are omitted as non-core). -/
inductive Ev where
  | authenticated (uid : UserId) (uname : String)
  | searching
  | chatConnected (pid : UserId) (uname : Option String)
  | messageSent
  | receiveMessage (content : String) (senderId : UserId)
  | partnerLeft
  | chatEnded
  | videoCallEnded (fromUser : Option UserId)
  | errorEv (msg : String)
deriving DecidableEq

/-- The `authenticate` handler, lines 42-85, with the token resolution
(mock token / verified token / random fallback) abstracted into the resolved
`(uid, uname)` pair: every path of the handler ends with
`userSockets.set(userId, socket); socket.userId = userId;
socket.username = username; socket.emit('authenticated', ...)`. -/
def authenticate (st : ServerSt) (s : SockId) (uid : UserId) (uname : String) :
    ServerSt × List (SockId × Ev) :=
  let st1 := { st with userSockets := jsSet st.userSockets uid s }
  let st2 := updSock st1 s
    (fun sk => { sk with userId := some uid, username := some uname })
  (st2, [(s, Ev.authenticated uid uname)])

/-- Lines 89-99 of the `search_chat` handler: if `!socket.userId`, generate an
anonymous id and name, assign them and register the socket. -/
def autoAuth (st : ServerSt) (s : SockId) (freshId : UserId) (freshName : String) :
    ServerSt :=
  match (getSock st s).userId with
  | some _ => st
  | none =>
      let st1 := updSock st s
        (fun sk => { sk with userId := some freshId, username := some freshName })
      { st1 with userSockets := jsSet st1.userSockets freshId s }

/-- Lines 103-137 of the `search_chat` handler, run with the (now defined)
`socket.userId = uid`: enqueue the caller, emit `searching`, and if the pool
has at least two entries, pair with the first waiting key different from the
caller's id, delete both from the pool, link both sockets and emit
`chat_connected` to both. -/
def doSearch (st : ServerSt) (s : SockId) (uid : UserId) :
    ServerSt × List (SockId × Ev) :=
  let W := jsSet st.waitingUsers uid s
  let st2 := { st with waitingUsers := W }
  let evs := [(s, Ev.searching)]
  if 2 ≤ W.length then
    match (W.map Prod.fst).find? (fun id => id ≠ uid) with
    | some partnerId =>
        match jsGet W partnerId with
        | some pSock =>
            let st3 := { st2 with
              waitingUsers := jsDelete (jsDelete W uid) partnerId }
            let st4 := updSock st3 s (fun sk => { sk with chatPartnerId := some partnerId })
            let st5 := updSock st4 pSock (fun sk => { sk with chatPartnerId := some uid })
            (st5, evs ++
              [(s, Ev.chatConnected partnerId (getSock st5 pSock).username),
               (pSock, Ev.chatConnected uid (getSock st5 s).username)])
        | none => (st2, evs)
    | none => (st2, evs)
  else (st2, evs)

/-- The `search_chat` handler, lines 88-138. -/
def searchChat (st : ServerSt) (s : SockId) (freshId : UserId) (freshName : String) :
    ServerSt × List (SockId × Ev) :=
  let st1 := autoAuth st s freshId freshName
  match (getSock st1 s).userId with
  | some uid => doSearch st1 s uid
  | none => (st1, [])

/-- The `send_message` handler, lines 141-198: requires `userId` and
`chatPartnerId`; forwards to the partner's registered socket when present;
always confirms to the sender with `message_sent`. -/
def sendMessage (st : ServerSt) (s : SockId) (content : String) :
    ServerSt × List (SockId × Ev) :=
  let sock := getSock st s
  match sock.userId, sock.chatPartnerId with
  | some uid, some pid =>
      (st,
        (match jsGet st.userSockets pid with
         | some pSock => [(pSock, Ev.receiveMessage content uid)]
         | none => []) ++ [(s, Ev.messageSent)])
  | _, _ => (st, [(s, Ev.errorEv "Not in a chat session")])

/-- The `leave_chat` handler, lines 213-231. -/
def leaveChat (st : ServerSt) (s : SockId) : ServerSt × List (SockId × Ev) :=
  let sock := getSock st s
  match sock.userId, sock.chatPartnerId with
  | some _, some pid =>
      let (st1, evs1) :=
        match jsGet st.userSockets pid with
        | some pSock =>
            (updSock st pSock (fun sk => { sk with chatPartnerId := none }),
             [(pSock, Ev.partnerLeft)])
        | none => (st, ([] : List (SockId × Ev)))
      let st2 := updSock st1 s (fun sk => { sk with chatPartnerId := none })
      (st2, evs1 ++ [(s, Ev.chatEnded)])
  | _, _ => (st, [])

/-- The `start_chat_with_friend` handler, lines 403-443. -/
def startChatWithFriend (st : ServerSt) (s : SockId) (friendId : UserId) :
    ServerSt × List (SockId × Ev) :=
  let sock := getSock st s
  match sock.userId with
  | none => (st, [(s, Ev.errorEv "Not authenticated")])
  | some uid =>
      match jsGet st.userSockets friendId with
      | some fSock =>
          let st1 := updSock st s (fun sk => { sk with chatPartnerId := some friendId })
          let st2 := updSock st1 fSock (fun sk => { sk with chatPartnerId := some uid })
          (st2,
            [(s, Ev.chatConnected friendId (getSock st2 fSock).username),
             (fSock, Ev.chatConnected uid (getSock st2 s).username)])
      | none => (st, [(s, Ev.errorEv "This friend is currently offline")])

/-- The `end_video_call` handler, lines 497-510: notify the partner's
registered socket (if any) with `video_call_ended`; nothing else changes. -/
def endVideoCall (st : ServerSt) (s : SockId) : ServerSt × List (SockId × Ev) :=
  let sock := getSock st s
  match sock.chatPartnerId with
  | none => (st, [])
  | some pid =>
      match jsGet st.userSockets pid with
      | some pSock => (st, [(pSock, Ev.videoCallEnded sock.userId)])
      | none => (st, [])

/-- The `disconnect` handler, lines 513-532: if the socket has a `userId`,
delete it from `userSockets` and `waitingUsers`; then, if it has a
`chatPartnerId` whose socket is (still) registered, emit `partner_left` to
that socket and clear its `chatPartnerId`. -/
def disconnectH (st : ServerSt) (s : SockId) : ServerSt × List (SockId × Ev) :=
  let sock := getSock st s
  match sock.userId with
  | none => (st, [])
  | some uid =>
      let st1 := { st with
        userSockets := jsDelete st.userSockets uid,
        waitingUsers := jsDelete st.waitingUsers uid }
      match sock.chatPartnerId with
      | some pid =>
          match jsGet st1.userSockets pid with
          | some pSock =>
              (updSock st1 pSock (fun sk => { sk with chatPartnerId := none }),
               [(pSock, Ev.partnerLeft)])
          | none => (st1, [])
      | none => (st1, [])

/-- Client-triggered operations on the shared state (the handlers the claims
quantify over).  Nondeterministic fresh identifiers appear as arguments. -/
inductive Op where
  | auth (s : SockId) (uid : UserId) (uname : String)
  | search (s : SockId) (freshId : UserId) (freshName : String)
  | send (s : SockId) (content : String)
  | leave (s : SockId)
  | friendChat (s : SockId) (friendId : UserId)
  | endCall (s : SockId)
  | disco (s : SockId)
deriving DecidableEq

def step (st : ServerSt) : Op → ServerSt × List (SockId × Ev)
  | .auth s uid n => authenticate st s uid n
  | .search s f n => searchChat st s f n
  | .send s c => sendMessage st s c
  | .leave s => leaveChat st s
  | .friendChat s f => startChatWithFriend st s f
  | .endCall s => endVideoCall st s
  | .disco s => disconnectH st s

/-- Run a sequence of operations, accumulating emitted events in order. -/
def run (st : ServerSt) : List Op → ServerSt × List (SockId × Ev)
  | [] => (st, [])
  | op :: rest =>
      let r1 := step st op
      let r2 := run r1.1 rest
      (r2.1, r1.2 ++ r2.2)

/-! ### Lemmas about the JavaScript-`Map` model -/

theorem jsGet_jsSet_self {α : Type} (m : List (Nat × α)) (k : Nat) (v : α) :
    jsGet (jsSet m k v) k = some v := by
  induction m with
  | nil => simp [jsSet, jsGet]
  | cons p rest ih =>
      obtain ⟨k', v'⟩ := p
      by_cases h : k' = k <;> simp [jsSet, jsGet, h, ih]

theorem jsGet_jsSet_ne {α : Type} (m : List (Nat × α)) (k k' : Nat) (v : α)
    (h : k' ≠ k) : jsGet (jsSet m k v) k' = jsGet m k' := by
  induction m with
  | nil => simp [jsSet, jsGet, Ne.symm h]
  | cons p rest ih =>
      obtain ⟨a, b⟩ := p
      by_cases ha : a = k
      · subst ha
        simp [jsSet, jsGet, Ne.symm h]
      · by_cases hb : a = k' <;> simp [jsSet, jsGet, ha, hb, ih, h, Ne.symm h]

theorem jsGet_jsDelete_self {α : Type} (m : List (Nat × α)) (k : Nat) :
    jsGet (jsDelete m k) k = none := by
  induction m with
  | nil => simp [jsDelete, jsGet]
  | cons p rest ih =>
      obtain ⟨a, b⟩ := p
      by_cases ha : a = k <;> simp [jsDelete, jsGet, ha, ih]

theorem jsGet_jsDelete_ne {α : Type} (m : List (Nat × α)) (k k' : Nat)
    (h : k' ≠ k) : jsGet (jsDelete m k) k' = jsGet m k' := by
  induction m with
  | nil => simp [jsDelete]
  | cons p rest ih =>
      obtain ⟨a, b⟩ := p
      by_cases ha : a = k
      · subst ha
        simp [jsDelete, jsGet, Ne.symm h, ih]
      · by_cases hb : a = k' <;> simp [jsDelete, jsGet, ha, hb, ih, h, Ne.symm h]

theorem jsSet_of_get_none {α : Type} (m : List (Nat × α)) (k : Nat) (v : α)
    (h : jsGet m k = none) : jsSet m k v = m ++ [(k, v)] := by
  induction m with
  | nil => simp [jsSet]
  | cons p rest ih =>
      obtain ⟨a, b⟩ := p
      by_cases ha : a = k
      · simp [jsGet, ha] at h
      · simp [jsGet, ha] at h
        simp [jsSet, ha, ih h]

theorem jsDelete_of_get_none {α : Type} (m : List (Nat × α)) (k : Nat)
    (h : jsGet m k = none) : jsDelete m k = m := by
  induction m with
  | nil => simp [jsDelete]
  | cons p rest ih =>
      obtain ⟨a, b⟩ := p
      by_cases ha : a = k
      · simp [jsGet, ha] at h
      · simp [jsGet, ha] at h
        simp [jsDelete, ha, ih h]

theorem mem_of_mem_jsSet {α : Type} {m : List (Nat × α)} {k : Nat} {v : α}
    {p : Nat × α} (h : p ∈ jsSet m k v) : p = (k, v) ∨ p ∈ m := by
  induction m with
  | nil => simp [jsSet] at h; simp [h]
  | cons q rest ih =>
      obtain ⟨a, b⟩ := q
      by_cases ha : a = k
      · simp [jsSet, ha] at h
        rcases h with h | h
        · exact Or.inl (by simp [h])
        · exact Or.inr (by simp [h])
      · simp [jsSet, ha] at h
        rcases h with h | h
        · exact Or.inr (by simp [h])
        · rcases ih h with h' | h'
          · exact Or.inl h'
          · exact Or.inr (by simp [h'])

theorem mem_of_mem_jsDelete {α : Type} {m : List (Nat × α)} {k : Nat}
    {p : Nat × α} (h : p ∈ jsDelete m k) : p ∈ m := by
  induction m with
  | nil => simp [jsDelete] at h
  | cons q rest ih =>
      obtain ⟨a, b⟩ := q
      by_cases ha : a = k
      · simp [jsDelete, ha] at h
        exact List.mem_cons_of_mem _ (ih h)
      · simp [jsDelete, ha] at h
        rcases h with h | h
        · exact by simp [h]
        · exact List.mem_cons_of_mem _ (ih h)

theorem mem_of_jsGet_eq_some {α : Type} {m : List (Nat × α)} {k : Nat} {v : α}
    (h : jsGet m k = some v) : (k, v) ∈ m := by
  induction m with
  | nil => simp [jsGet] at h
  | cons q rest ih =>
      obtain ⟨a, b⟩ := q
      by_cases ha : a = k
      · subst ha
        simp [jsGet] at h
        simp [h]
      · simp [jsGet, ha] at h
        exact List.mem_cons_of_mem _ (ih h)

/-! ### Lemmas about socket-object access -/

theorem getSock_updSock_self (st : ServerSt) (s : SockId) (f : SocketSt → SocketSt) :
    getSock (updSock st s f) s = f (getSock st s) := by
  simp [getSock, updSock, jsGet_jsSet_self]

theorem getSock_updSock_ne (st : ServerSt) (s x : SockId) (f : SocketSt → SocketSt)
    (h : x ≠ s) : getSock (updSock st s f) x = getSock st x := by
  simp [getSock, updSock, jsGet_jsSet_ne _ _ _ _ h]

theorem updSock_userSockets (st : ServerSt) (s : SockId) (f : SocketSt → SocketSt) :
    (updSock st s f).userSockets = st.userSockets := rfl

theorem updSock_waitingUsers (st : ServerSt) (s : SockId) (f : SocketSt → SocketSt) :
    (updSock st s f).waitingUsers = st.waitingUsers := rfl

theorem getSock_updSock_userId (st : ServerSt) (s x : SockId) (f : SocketSt → SocketSt)
    (hf : ∀ sk, (f sk).userId = sk.userId) :
    (getSock (updSock st s f) x).userId = (getSock st x).userId := by
  by_cases hx : x = s
  · subst hx
    rw [getSock_updSock_self, hf]
  · rw [getSock_updSock_ne _ _ _ _ hx]

/-! ### Reduction lemmas for the `search_chat` handler -/

theorem getSock_record_self (st : ServerSt) (s : SockId) (v : SocketSt)
    (us wu : List (UserId × SockId)) :
    getSock ⟨jsSet st.sockets s v, us, wu⟩ s = v := by
  simp [getSock, jsGet_jsSet_self]

theorem getSock_record_ne (st : ServerSt) (s x : SockId) (v : SocketSt)
    (us wu : List (UserId × SockId)) (hx : x ≠ s) :
    getSock ⟨jsSet st.sockets s v, us, wu⟩ x = getSock st x := by
  simp [getSock, jsGet_jsSet_ne _ _ _ _ hx]

theorem autoAuth_of_some {st : ServerSt} {s : SockId} {u : UserId}
    (h : (getSock st s).userId = some u) (f : UserId) (n : String) :
    autoAuth st s f n = st := by
  unfold autoAuth
  rw [h]

theorem autoAuth_none {st : ServerSt} {s : SockId}
    (h : (getSock st s).userId = none) (f : UserId) (n : String) :
    autoAuth st s f n =
      { st with
        sockets := jsSet st.sockets s
          { getSock st s with userId := some f, username := some n },
        userSockets := jsSet st.userSockets f s } := by
  unfold autoAuth
  rw [h]
  rfl

theorem searchChat_of_some {st : ServerSt} {s : SockId} {uid : UserId}
    (h : (getSock st s).userId = some uid) (f : UserId) (n : String) :
    searchChat st s f n = doSearch st s uid := by
  simp only [searchChat, autoAuth_of_some h, h]

/-- The state produced by the pairing branch of `search_chat`: the caller and
the chosen partner are removed from the pool and their sockets linked. -/
def pairSt (st : ServerSt) (s pSock : SockId) (uid partnerId : UserId) : ServerSt :=
  updSock
    (updSock
      { st with waitingUsers :=
          jsDelete (jsDelete (jsSet st.waitingUsers uid s) uid) partnerId }
      s (fun sk => { sk with chatPartnerId := some partnerId }))
    pSock (fun sk => { sk with chatPartnerId := some uid })

/-- Either no pairing happens (pool shorter than two, or no key differs from
the caller), or the first waiting key different from the caller is paired. -/
theorem doSearch_cases (st : ServerSt) (s : SockId) (uid : UserId) :
    doSearch st s uid =
      ({ st with waitingUsers := jsSet st.waitingUsers uid s }, [(s, Ev.searching)])
    ∨ ∃ partnerId pSock,
        ((jsSet st.waitingUsers uid s).map Prod.fst).find? (fun id => id ≠ uid) =
          some partnerId ∧
        jsGet (jsSet st.waitingUsers uid s) partnerId = some pSock ∧
        doSearch st s uid =
          (pairSt st s pSock uid partnerId,
           [(s, Ev.searching),
            (s, Ev.chatConnected partnerId
              (getSock (pairSt st s pSock uid partnerId) pSock).username),
            (pSock, Ev.chatConnected uid
              (getSock (pairSt st s pSock uid partnerId) s).username)]) := by
  simp only [doSearch]
  by_cases hlen : 2 ≤ (jsSet st.waitingUsers uid s).length
  · rw [if_pos hlen]
    rcases hfind : ((jsSet st.waitingUsers uid s).map Prod.fst).find?
        (fun id => id ≠ uid) with _ | partnerId
    · exact Or.inl rfl
    · dsimp only
      rcases hget : jsGet (jsSet st.waitingUsers uid s) partnerId with _ | pSock
      · exact Or.inl rfl
      · exact Or.inr ⟨partnerId, pSock, rfl, hget, rfl⟩
  · rw [if_neg hlen]
    exact Or.inl rfl

/-! ### Stability of socket identities and pool consistency -/

theorem getSock_updPartner_userId (st : ServerSt) (s x : SockId) (v : Option UserId) :
    (getSock (updSock st s (fun sk => { sk with chatPartnerId := v })) x).userId =
      (getSock st x).userId := by
  by_cases hx : x = s
  · subst hx
    rw [getSock_updSock_self]
  · rw [getSock_updSock_ne _ _ _ _ hx]

theorem getSock_updPartner_username (st : ServerSt) (s x : SockId) (v : Option UserId) :
    (getSock (updSock st s (fun sk => { sk with chatPartnerId := v })) x).username =
      (getSock st x).username := by
  by_cases hx : x = s
  · subst hx
    rw [getSock_updSock_self]
  · rw [getSock_updSock_ne _ _ _ _ hx]

theorem getSock_pairSt_userId (st : ServerSt) (s pSock x : SockId)
    (uid partnerId : UserId) :
    (getSock (pairSt st s pSock uid partnerId) x).userId = (getSock st x).userId := by
  unfold pairSt
  rw [getSock_updPartner_userId, getSock_updPartner_userId]
  rfl

theorem getSock_pairSt_username (st : ServerSt) (s pSock x : SockId)
    (uid partnerId : UserId) :
    (getSock (pairSt st s pSock uid partnerId) x).username = (getSock st x).username := by
  unfold pairSt
  rw [getSock_updPartner_username, getSock_updPartner_username]
  rfl

theorem pairSt_userSockets (st : ServerSt) (s pSock : SockId) (uid partnerId : UserId) :
    (pairSt st s pSock uid partnerId).userSockets = st.userSockets := rfl

theorem pairSt_waitingUsers (st : ServerSt) (s pSock : SockId) (uid partnerId : UserId) :
    (pairSt st s pSock uid partnerId).waitingUsers =
      jsDelete (jsDelete (jsSet st.waitingUsers uid s) uid) partnerId := rfl

/-- Every waiting-pool entry points at a socket whose current `userId` is the
entry's key. -/
def WaitConsistent (st : ServerSt) : Prop :=
  ∀ p ∈ st.waitingUsers, (getSock st p.2).userId = some p.1

theorem WaitConsistent_autoAuth {st : ServerSt} (hc : WaitConsistent st)
    (s : SockId) (f : UserId) (n : String) : WaitConsistent (autoAuth st s f n) := by
  rcases hs : (getSock st s).userId with _ | v
  · rw [autoAuth_none hs]
    intro p hp
    have hp' : p ∈ st.waitingUsers := hp
    by_cases hx : p.2 = s
    · have hcp := hc p hp'
      rw [hx, hs] at hcp
      cases hcp
    · have hg : getSock
          ⟨jsSet st.sockets s { getSock st s with userId := some f, username := some n },
           jsSet st.userSockets f s, st.waitingUsers⟩ p.2 = getSock st p.2 :=
        getSock_record_ne st s p.2 _ _ _ hx
      rw [hg]
      exact hc p hp'
  · rw [autoAuth_of_some hs]
    exact hc

theorem autoAuth_userId_of_some {st : ServerSt} {x : SockId} {u : UserId}
    (h : (getSock st x).userId = some u) (s : SockId) (f : UserId) (n : String) :
    (getSock (autoAuth st s f n) x).userId = some u := by
  rcases hs : (getSock st s).userId with _ | v
  · rw [autoAuth_none hs]
    by_cases hx : x = s
    · subst hx
      rw [hs] at h
      cases h
    · rw [getSock_record_ne st s x _ _ _ hx]
      exact h
  · rw [autoAuth_of_some hs]
    exact h

theorem autoAuth_self_userId (st : ServerSt) (s : SockId) (f : UserId) (n : String) :
    ∃ uid, (getSock (autoAuth st s f n) s).userId = some uid := by
  rcases hs : (getSock st s).userId with _ | v
  · refine ⟨f, ?_⟩
    rw [autoAuth_none hs, getSock_record_self]
  · exact ⟨v, by rw [autoAuth_of_some hs]; exact hs⟩

/-- `search_chat` is auto-authentication followed by the search body. -/
theorem searchChat_eq (st : ServerSt) (s : SockId) (f : UserId) (n : String) :
    ∃ uid, (getSock (autoAuth st s f n) s).userId = some uid ∧
      searchChat st s f n = doSearch (autoAuth st s f n) s uid := by
  obtain ⟨uid, huid⟩ := autoAuth_self_userId st s f n
  refine ⟨uid, huid, ?_⟩
  simp only [searchChat, huid]

theorem doSearch_userId (st : ServerSt) (s : SockId) (uid : UserId) (x : SockId) :
    (getSock (doSearch st s uid).1 x).userId = (getSock st x).userId := by
  rcases doSearch_cases st s uid with h | ⟨partnerId, pSock, hfind, hget, h⟩
  · rw [h]
    rfl
  · rw [h]
    exact getSock_pairSt_userId st s pSock x uid partnerId


theorem WaitConsistent_doSearch {st : ServerSt} {s : SockId} {uid : UserId}
    (hc : WaitConsistent st) (hs : (getSock st s).userId = some uid) :
    WaitConsistent (doSearch st s uid).1 := by
  have hc2 : ∀ p ∈ jsSet st.waitingUsers uid s, (getSock st p.2).userId = some p.1 := by
    intro p hp
    rcases mem_of_mem_jsSet hp with h | h
    · rw [h]
      exact hs
    · exact hc p h
  rcases doSearch_cases st s uid with h | ⟨partnerId, pSock, hfind, hget, h⟩
  · rw [h]
    intro p hp
    exact hc2 p hp
  · rw [h]
    intro p hp
    have hp' : p ∈ jsSet st.waitingUsers uid s :=
      mem_of_mem_jsDelete (mem_of_mem_jsDelete hp)
    have hg : (getSock (pairSt st s pSock uid partnerId) p.2).userId = some p.1 := by
      rw [getSock_pairSt_userId]
      exact hc2 p hp'
    exact hg

theorem doSearch_no_self {st : ServerSt} {s : SockId} {uid : UserId}
    (hc : WaitConsistent st) (hs : (getSock st s).userId = some uid) :
    ∀ sid pid u, (sid, Ev.chatConnected pid u) ∈ (doSearch st s uid).2 →
      ∃ r, (getSock (doSearch st s uid).1 sid).userId = some r ∧ r ≠ pid := by
  have hc2 : ∀ p ∈ jsSet st.waitingUsers uid s, (getSock st p.2).userId = some p.1 := by
    intro p hp
    rcases mem_of_mem_jsSet hp with h | h
    · rw [h]
      exact hs
    · exact hc p h
  rcases doSearch_cases st s uid with h | ⟨partnerId, pSock, hfind, hget, h⟩
  · rw [h]
    intro sid pid u hmem
    simp at hmem
  · have hne : partnerId ≠ uid := by
      have hp := List.find?_some hfind
      simpa using hp
    rw [h]
    dsimp only
    intro sid pid u hmem
    simp at hmem
    rcases hmem with ⟨rfl, rfl, -⟩ | ⟨rfl, rfl, -⟩
    · refine ⟨uid, ?_, Ne.symm hne⟩
      rw [getSock_pairSt_userId]
      exact hs
    · refine ⟨partnerId, ?_, hne⟩
      rw [getSock_pairSt_userId]
      exact hc2 _ (mem_of_jsGet_eq_some hget)

theorem searchChat_userId_of_some {st : ServerSt} {x : SockId} {u : UserId}
    (h : (getSock st x).userId = some u) (s : SockId) (f : UserId) (n : String) :
    (getSock (searchChat st s f n).1 x).userId = some u := by
  obtain ⟨uid, hself, heq⟩ := searchChat_eq st s f n
  rw [heq, doSearch_userId]
  exact autoAuth_userId_of_some h s f n

theorem WaitConsistent_searchChat {st : ServerSt} (hc : WaitConsistent st)
    (s : SockId) (f : UserId) (n : String) :
    WaitConsistent (searchChat st s f n).1 := by
  obtain ⟨uid, hself, heq⟩ := searchChat_eq st s f n
  rw [heq]
  exact WaitConsistent_doSearch (WaitConsistent_autoAuth hc s f n) hself

theorem searchChat_no_self {st : ServerSt} (hc : WaitConsistent st)
    (s : SockId) (f : UserId) (n : String) :
    ∀ sid pid u, (sid, Ev.chatConnected pid u) ∈ (searchChat st s f n).2 →
      ∃ r, (getSock (searchChat st s f n).1 sid).userId = some r ∧ r ≠ pid := by
  obtain ⟨uid, hself, heq⟩ := searchChat_eq st s f n
  rw [heq]
  exact doSearch_no_self (WaitConsistent_autoAuth hc s f n) hself

/-- Discriminator for `search_chat` operations. -/
def Op.isSearch : Op → Bool
  | .search _ _ _ => true
  | _ => false

theorem run_userId_of_some :
    ∀ (ops : List Op), (∀ op ∈ ops, op.isSearch = true) →
    ∀ (st : ServerSt) (x : SockId) (u : UserId),
      (getSock st x).userId = some u →
      (getSock (run st ops).1 x).userId = some u := by
  intro ops
  induction ops with
  | nil => intro _ st x u h; exact h
  | cons op rest ih =>
      intro hs st x u h
      have hop := hs op (List.mem_cons_self op rest)
      have hrest : ∀ o ∈ rest, o.isSearch = true :=
        fun o ho => hs o (List.mem_cons_of_mem op ho)
      cases op with
      | search s f n => exact ih hrest _ x u (searchChat_userId_of_some h s f n)
      | auth s uid un => simp [Op.isSearch] at hop
      | send s c => simp [Op.isSearch] at hop
      | leave s => simp [Op.isSearch] at hop
      | friendChat s fid => simp [Op.isSearch] at hop
      | endCall s => simp [Op.isSearch] at hop
      | disco s => simp [Op.isSearch] at hop

theorem run_no_self :
    ∀ (ops : List Op), (∀ op ∈ ops, op.isSearch = true) →
    ∀ (st : ServerSt), WaitConsistent st →
    ∀ sid pid u, (sid, Ev.chatConnected pid u) ∈ (run st ops).2 →
      (getSock (run st ops).1 sid).userId ≠ some pid := by
  intro ops
  induction ops with
  | nil =>
      intro _ st _ sid pid u hmem
      simp [run] at hmem
  | cons op rest ih =>
      intro hs st hc sid pid u hmem
      have hop := hs op (List.mem_cons_self op rest)
      have hrest : ∀ o ∈ rest, o.isSearch = true :=
        fun o ho => hs o (List.mem_cons_of_mem op ho)
      cases op with
      | search s f n =>
          have hmem' : (sid, Ev.chatConnected pid u) ∈
              (searchChat st s f n).2 ++ (run (searchChat st s f n).1 rest).2 := hmem
          rcases List.mem_append.mp hmem' with h1 | h2
          · obtain ⟨r, hr, hrp⟩ := searchChat_no_self hc s f n sid pid u h1
            have hfin : (getSock (run (searchChat st s f n).1 rest).1 sid).userId = some r :=
              run_userId_of_some rest hrest _ sid r hr
            intro hco
            have hco' : (getSock (run (searchChat st s f n).1 rest).1 sid).userId =
                some pid := hco
            rw [hfin] at hco'
            exact hrp (Option.some.inj hco')
          · exact ih hrest _ (WaitConsistent_searchChat hc s f n) sid pid u h2
      | auth s uid un => simp [Op.isSearch] at hop
      | send s c => simp [Op.isSearch] at hop
      | leave s => simp [Op.isSearch] at hop
      | friendChat s fid => simp [Op.isSearch] at hop
      | endCall s => simp [Op.isSearch] at hop
      | disco s => simp [Op.isSearch] at hop

theorem WaitConsistent_initSt : WaitConsistent initSt := by
  intro p hp
  exact absurd hp (List.not_mem_nil p)

/-! ### Additional handler reduction lemmas used by the claims -/

theorem doSearch_userSockets (st : ServerSt) (s : SockId) (uid : UserId) :
    (doSearch st s uid).1.userSockets = st.userSockets := by
  rcases doSearch_cases st s uid with h | ⟨partnerId, pSock, hfind, hget, h⟩
  · rw [h]
  · rw [h]
    exact pairSt_userSockets st s pSock uid partnerId

theorem doSearch_username (st : ServerSt) (s : SockId) (uid : UserId) (x : SockId) :
    (getSock (doSearch st s uid).1 x).username = (getSock st x).username := by
  rcases doSearch_cases st s uid with h | ⟨partnerId, pSock, hfind, hget, h⟩
  · rw [h]
    rfl
  · rw [h]
    exact getSock_pairSt_username st s pSock x uid partnerId

theorem doSearch_events (st : ServerSt) (s : SockId) (uid : UserId) :
    ∀ e ∈ (doSearch st s uid).2,
      e.2 = Ev.searching ∨ ∃ p u, e.2 = Ev.chatConnected p u := by
  rcases doSearch_cases st s uid with h | ⟨partnerId, pSock, hfind, hget, h⟩
  · rw [h]
    intro e he
    simp at he
    rw [he]
    exact Or.inl rfl
  · rw [h]
    intro e he
    simp at he
    rcases he with he | he | he
    · rw [he]
      exact Or.inl rfl
    · rw [he]
      exact Or.inr ⟨_, _, rfl⟩
    · rw [he]
      exact Or.inr ⟨_, _, rfl⟩

/-! ### Claim C2 -/

/-- Claim C2 (as stated) is false: a user with an active session who sends
`search_chat` is not rejected.  Concretely, after users 10 and 11 are paired,
a further `search_chat` from user 10's socket (socket 0) enqueues user 10 in
the waiting pool, emits `searching`, and no `AlreadyInSession`-style error
event exists — while the session link to 11 is still in place. -/
theorem claim_C2_counterexample :
    (getSock (run initSt
        [Op.search 0 10 "a", Op.search 1 11 "b"]).1 0).chatPartnerId = some 11 ∧
    (searchChat (run initSt [Op.search 0 10 "a", Op.search 1 11 "b"]).1 0 99 "c").2 =
      [(0, Ev.searching)] ∧
    jsGet (searchChat (run initSt
        [Op.search 0 10 "a", Op.search 1 11 "b"]).1 0 99 "c").1.waitingUsers 10 =
      some 0 := by
  decide

/-- Claim C2, amended: `search_chat` from a user who currently has an active
session is not rejected and there is no `AlreadyInSession` signal; the user is
enqueued in the waiting pool and receives `searching` (here stated for an
otherwise empty pool), with the existing session link left untouched. -/
theorem claim_C2_amended (st : ServerSt) (s : SockId) (uid pid : UserId)
    (f : UserId) (n : String)
    (h1 : (getSock st s).userId = some uid)
    (h2 : (getSock st s).chatPartnerId = some pid)
    (h3 : st.waitingUsers = []) :
    searchChat st s f n =
      ({ st with waitingUsers := [(uid, s)] }, [(s, Ev.searching)]) ∧
    (getSock (searchChat st s f n).1 s).chatPartnerId = some pid := by
  have heq : searchChat st s f n =
      ({ st with waitingUsers := [(uid, s)] }, [(s, Ev.searching)]) := by
    rw [searchChat_of_some h1]
    simp [doSearch, h3, jsSet]
  refine ⟨heq, ?_⟩
  rw [heq]
  exact h2

/-- Witness for `claim_C2_amended` at a concrete state. -/
theorem claim_C2_amended_witness :
    searchChat ⟨[(0, ⟨some 10, some "a", some 11⟩)], [(10, 0)], []⟩ 0 99 "c" =
      (⟨[(0, ⟨some 10, some "a", some 11⟩)], [(10, 0)], [(10, 0)]⟩,
       [(0, Ev.searching)]) :=
  (claim_C2_amended ⟨[(0, ⟨some 10, some "a", some 11⟩)], [(10, 0)], []⟩
    0 10 11 99 "c" (by decide) (by decide) (by decide)).1

/-! ### Claim C3 -/

/-- Claim C3 (as stated) is false: `end_video_call` performs no teardown.
After pairing users 10 (socket 0) and 11 (socket 1), an `end_video_call` from
socket 0 delivers exactly one `video_call_ended` to socket 1 but leaves the
state — including both `chatPartnerId` links — completely unchanged. -/
theorem claim_C3_counterexample :
    endVideoCall (run initSt [Op.search 0 10 "a", Op.search 1 11 "b"]).1 0 =
      ((run initSt [Op.search 0 10 "a", Op.search 1 11 "b"]).1,
       [(1, Ev.videoCallEnded (some 10))]) ∧
    (getSock (run initSt [Op.search 0 10 "a", Op.search 1 11 "b"]).1 0).chatPartnerId =
      some 11 ∧
    (getSock (run initSt [Op.search 0 10 "a", Op.search 1 11 "b"]).1 1).chatPartnerId =
      some 10 := by
  decide

/-- Claim C3, amended: for every `end_video_call` from a socket with a
partner whose socket is registered, the partner receives exactly one
`video_call_ended` notification, and nothing is torn down: the whole server
state (registry, pool, and both participants' session links) is unchanged. -/
theorem claim_C3_amended (st : ServerSt) (s ps : SockId) (pid : UserId)
    (h1 : (getSock st s).chatPartnerId = some pid)
    (h2 : jsGet st.userSockets pid = some ps) :
    endVideoCall st s = (st, [(ps, Ev.videoCallEnded (getSock st s).userId)]) := by
  simp only [endVideoCall, h1, h2]

/-- Witness for `claim_C3_amended` at a concrete state. -/
theorem claim_C3_amended_witness :
    endVideoCall ⟨[(0, ⟨some 10, some "a", some 11⟩), (1, ⟨some 11, some "b", some 10⟩)],
        [(10, 0), (11, 1)], []⟩ 0 =
      (⟨[(0, ⟨some 10, some "a", some 11⟩), (1, ⟨some 11, some "b", some 10⟩)],
        [(10, 0), (11, 1)], []⟩,
       [(1, Ev.videoCallEnded (some 10))]) :=
  claim_C3_amended _ 0 1 11 (by decide) (by decide)

/-! ### Claim C4 -/

/-- Claim C4 (as stated) is false: when the partner's connection is gone the
sender does not get a `PartnerOffline` result — no such signal exists; the
code still confirms with `message_sent`.  Concretely: 10 and 11 are paired, a
second connection (socket 2) re-registers user 11 and disconnects, removing
11 from the registry while 10's session link is intact; 10's `send_message`
then emits only `message_sent` to the sender (payload dropped, no error). -/
theorem claim_C4_counterexample :
    jsGet (run initSt [Op.search 0 10 "a", Op.search 1 11 "b",
        Op.auth 2 11 "c", Op.disco 2]).1.userSockets 11 = none ∧
    (getSock (run initSt [Op.search 0 10 "a", Op.search 1 11 "b",
        Op.auth 2 11 "c", Op.disco 2]).1 0).chatPartnerId = some 11 ∧
    sendMessage (run initSt [Op.search 0 10 "a", Op.search 1 11 "b",
        Op.auth 2 11 "c", Op.disco 2]).1 0 "hi" =
      ((run initSt [Op.search 0 10 "a", Op.search 1 11 "b",
        Op.auth 2 11 "c", Op.disco 2]).1,
       [(0, Ev.messageSent)]) := by
  decide

/-- Claim C4, amended: a send by a user in a session whose partner's
connection is absent from the registry drops the payload (no
`receive_message` is emitted to anyone), raises no error, and still confirms
`message_sent` to the sender; there is no `PartnerOffline` result. -/
theorem claim_C4_amended (st : ServerSt) (s : SockId) (uid pid : UserId)
    (c : String)
    (h1 : (getSock st s).userId = some uid)
    (h2 : (getSock st s).chatPartnerId = some pid)
    (h3 : jsGet st.userSockets pid = none) :
    sendMessage st s c = (st, [(s, Ev.messageSent)]) := by
  simp only [sendMessage, h1, h2, h3, List.nil_append]

/-- Witness for `claim_C4_amended` at a concrete state. -/
theorem claim_C4_amended_witness :
    sendMessage ⟨[(0, ⟨some 10, some "a", some 11⟩)], [(10, 0)], []⟩ 0 "hi" =
      (⟨[(0, ⟨some 10, some "a", some 11⟩)], [(10, 0)], []⟩,
       [(0, Ev.messageSent)]) :=
  claim_C4_amended _ 0 10 11 "hi" (by decide) (by decide) (by decide)

/-! ### The pairing branch of `search_chat` in explicit form -/

theorem jsDelete_append {α : Type} (l1 l2 : List (Nat × α)) (k : Nat) :
    jsDelete (l1 ++ l2) k = jsDelete l1 k ++ jsDelete l2 k := by
  induction l1 with
  | nil => simp [jsDelete]
  | cons p rest ih =>
      obtain ⟨a, b⟩ := p
      by_cases ha : a = k <;> simp [jsDelete, ha, ih]

theorem jsDelete_nil {α : Type} (k : Nat) : jsDelete ([] : List (Nat × α)) k = [] := rfl

theorem jsDelete_cons_eq {α : Type} (k : Nat) (b : α) (rest : List (Nat × α)) :
    jsDelete ((k, b) :: rest) k = jsDelete rest k := by
  simp [jsDelete]

theorem jsDelete_cons_ne {α : Type} (a k : Nat) (b : α) (rest : List (Nat × α))
    (h : ¬a = k) : jsDelete ((a, b) :: rest) k = (a, b) :: jsDelete rest k := by
  simp [jsDelete, h]

theorem doSearch_pair_eq (st : ServerSt) (s : SockId) (uid partnerId : UserId)
    (pSock : SockId)
    (hlen : 2 ≤ (jsSet st.waitingUsers uid s).length)
    (hfind : ((jsSet st.waitingUsers uid s).map Prod.fst).find? (fun id => id ≠ uid) =
      some partnerId)
    (hget : jsGet (jsSet st.waitingUsers uid s) partnerId = some pSock) :
    doSearch st s uid =
      (pairSt st s pSock uid partnerId,
       [(s, Ev.searching),
        (s, Ev.chatConnected partnerId
          (getSock (pairSt st s pSock uid partnerId) pSock).username),
        (pSock, Ev.chatConnected uid
          (getSock (pairSt st s pSock uid partnerId) s).username)]) := by
  simp only [doSearch]
  rw [if_pos hlen, hfind]
  dsimp only
  rw [hget]
  rfl

/-- When the pool holds `(u1, a)` first and the caller's id is fresh, the
caller pairs with `u1` (the earliest-enqueued different user): both are
removed from the pool, the links are set symmetrically, and both sides
receive `chat_connected` (the caller after its unconditional `searching`). -/
theorem searchChat_pairs (st : ServerSt) (s a : SockId) (uid u1 : UserId)
    (w : List (UserId × SockId)) (f : UserId) (n : String)
    (h1 : (getSock st s).userId = some uid)
    (hw : st.waitingUsers = (u1, a) :: w)
    (hu : jsGet st.waitingUsers uid = none)
    (hw1 : jsGet w u1 = none)
    (hsa : s ≠ a) :
    (searchChat st s f n).1.waitingUsers = w ∧
    (getSock (searchChat st s f n).1 s).chatPartnerId = some u1 ∧
    (getSock (searchChat st s f n).1 a).chatPartnerId = some uid ∧
    (searchChat st s f n).2 =
      [(s, Ev.searching),
       (s, Ev.chatConnected u1 (getSock st a).username),
       (a, Ev.chatConnected uid (getSock st s).username)] := by
  have hu' := hu
  rw [hw] at hu'
  simp only [jsGet] at hu'
  by_cases h10 : u1 = uid
  · rw [if_pos h10] at hu'
    cases hu'
  · rw [if_neg h10] at hu'
    have hW : jsSet st.waitingUsers uid s = (u1, a) :: (w ++ [(uid, s)]) := by
      rw [jsSet_of_get_none _ _ _ hu, hw]
      rfl
    have hlen : 2 ≤ (jsSet st.waitingUsers uid s).length := by
      rw [hW]
      simp
    have hmap : (jsSet st.waitingUsers uid s).map Prod.fst =
        u1 :: (w.map Prod.fst ++ [uid]) := by
      rw [hW]
      simp
    have hfind : ((jsSet st.waitingUsers uid s).map Prod.fst).find?
        (fun id => id ≠ uid) = some u1 := by
      rw [hmap, List.find?_cons_of_pos]
      exact decide_eq_true h10
    have hget : jsGet (jsSet st.waitingUsers uid s) u1 = some a := by
      rw [hW]
      simp [jsGet]
    have heq := doSearch_pair_eq st s uid u1 a hlen hfind hget
    rw [searchChat_of_some h1 f n, heq]
    have hwu : (pairSt st s a uid u1).waitingUsers = w := by
      rw [pairSt_waitingUsers, hW, jsDelete_cons_ne _ _ _ _ h10, jsDelete_append,
        jsDelete_of_get_none _ _ hu', jsDelete_cons_eq, jsDelete_cons_eq, jsDelete_nil,
        List.append_nil, jsDelete_of_get_none _ _ hw1]
    refine ⟨hwu, ?_, ?_, ?_⟩
    · unfold pairSt
      rw [getSock_updSock_ne _ _ _ _ hsa, getSock_updSock_self]
    · unfold pairSt
      rw [getSock_updSock_self]
    · rw [getSock_pairSt_username, getSock_pairSt_username]

/-! ### Claim C1 -/

/-- Claim C1 (as stated) is false: re-pairing does not tear down the old
pairing.  After 10-11 pair, 12 enqueues, and 10 searches again, socket 1
(user 11) still has `chatPartnerId = 10`, while user 10's socket now points
at 12 and socket 2 (user 12) also points at 10: pairing is not symmetric and
user 10 participates in two live links at once. -/
theorem claim_C1_counterexample :
    jsGet (run initSt [Op.search 0 10 "a", Op.search 1 11 "b",
        Op.search 2 12 "c", Op.search 0 99 "d"]).1.userSockets 10 = some 0 ∧
    (getSock (run initSt [Op.search 0 10 "a", Op.search 1 11 "b",
        Op.search 2 12 "c", Op.search 0 99 "d"]).1 1).userId = some 11 ∧
    (getSock (run initSt [Op.search 0 10 "a", Op.search 1 11 "b",
        Op.search 2 12 "c", Op.search 0 99 "d"]).1 1).chatPartnerId = some 10 ∧
    (getSock (run initSt [Op.search 0 10 "a", Op.search 1 11 "b",
        Op.search 2 12 "c", Op.search 0 99 "d"]).1 0).chatPartnerId = some 12 ∧
    (getSock (run initSt [Op.search 0 10 "a", Op.search 1 11 "b",
        Op.search 2 12 "c", Op.search 0 99 "d"]).1 2).chatPartnerId = some 10 := by
  decide

/-- Claim C1, amended: at the moment `search_chat` pairs the requester with a
waiting user the two links are set symmetrically; but no teardown of earlier
pairings happens (see the counterexample), so symmetry holds only between the
two just-paired sockets. -/
theorem claim_C1_pairing_symmetric (st : ServerSt) (s ps : SockId)
    (uid p : UserId) (f : UserId) (n : String)
    (h1 : (getSock st s).userId = some uid)
    (hw : st.waitingUsers = [(p, ps)])
    (hpu : p ≠ uid)
    (hsa : s ≠ ps) :
    (getSock (searchChat st s f n).1 s).chatPartnerId = some p ∧
    (getSock (searchChat st s f n).1 ps).chatPartnerId = some uid := by
  have hu : jsGet st.waitingUsers uid = none := by
    rw [hw]
    simp [jsGet, hpu]
  have h := searchChat_pairs st s ps uid p [] f n h1 hw hu rfl hsa
  exact ⟨h.2.1, h.2.2.1⟩

/-- Witness for `claim_C1_pairing_symmetric` at a concrete state. -/
theorem claim_C1_pairing_symmetric_witness :
    (getSock (searchChat ⟨[(0, ⟨some 10, some "a", none⟩), (1, ⟨some 11, some "b", none⟩)],
        [(11, 1)], [(11, 1)]⟩ 0 5 "z").1 0).chatPartnerId = some 11 ∧
    (getSock (searchChat ⟨[(0, ⟨some 10, some "a", none⟩), (1, ⟨some 11, some "b", none⟩)],
        [(11, 1)], [(11, 1)]⟩ 0 5 "z").1 1).chatPartnerId = some 10 :=
  claim_C1_pairing_symmetric _ 0 1 10 11 5 "z" (by decide) (by decide) (by decide)
    (by decide)

/-! ### Claim C5 -/

/-- Claim C5 (as stated) is false: with user 10 waiting, a `search_chat` by
user 11 emits `searching` to the caller first — even though a partner is
found and the caller is paired in the same call (the caller is also
transiently enqueued). -/
theorem claim_C5_counterexample :
    (searchChat (run initSt [Op.search 0 10 "a"]).1 1 11 "b").2 =
      [(1, Ev.searching),
       (1, Ev.chatConnected 10 (some "a")),
       (0, Ev.chatConnected 11 (some "b"))] := by
  decide

/-- Claim C5, amended: the caller is always enqueued first and always
receives `searching`; when a waiting user with a different id exists the
caller is then paired by return (`chat_connected` to both sides) and both are
removed from the pool, so `searching` is emitted in the paired case too. -/
theorem claim_C5_searching_always (st : ServerSt) (s ps : SockId)
    (uid p : UserId) (f : UserId) (n : String)
    (h1 : (getSock st s).userId = some uid)
    (hw : st.waitingUsers = [(p, ps)])
    (hpu : p ≠ uid)
    (hsa : s ≠ ps) :
    (searchChat st s f n).2 =
      [(s, Ev.searching),
       (s, Ev.chatConnected p (getSock st ps).username),
       (ps, Ev.chatConnected uid (getSock st s).username)] ∧
    (searchChat st s f n).1.waitingUsers = [] := by
  have hu : jsGet st.waitingUsers uid = none := by
    rw [hw]
    simp [jsGet, hpu]
  have h := searchChat_pairs st s ps uid p [] f n h1 hw hu rfl hsa
  exact ⟨h.2.2.2, h.1⟩

/-- Witness for `claim_C5_searching_always` at a concrete state. -/
theorem claim_C5_searching_always_witness :
    (searchChat ⟨[(3, ⟨some 20, some "c", none⟩), (4, ⟨some 21, some "d", none⟩)],
        [(21, 4)], [(21, 4)]⟩ 3 6 "y").2 =
      [(3, Ev.searching),
       (3, Ev.chatConnected 21 (some "d")),
       (4, Ev.chatConnected 20 (some "c"))] ∧
    (searchChat ⟨[(3, ⟨some 20, some "c", none⟩), (4, ⟨some 21, some "d", none⟩)],
        [(21, 4)], [(21, 4)]⟩ 3 6 "y").1.waitingUsers = [] :=
  claim_C5_searching_always _ 3 4 20 21 6 "y" (by decide) (by decide) (by decide)
    (by decide)

/-! ### Claim C6 -/

/-- Claim C6: FIFO fairness.  With the pool headed by the earliest-enqueued
entry `(u1, a)` and a new requester whose id is not in the pool, the
requester pairs with `u1` — the earliest-enqueued waiting user with a
different id — `u1` is removed, and the rest of the pool is untouched; both
sides receive `chat_connected`. -/
theorem claim_C6_fifo (st : ServerSt) (s a : SockId) (uid u1 : UserId)
    (w : List (UserId × SockId)) (f : UserId) (n : String)
    (h1 : (getSock st s).userId = some uid)
    (hw : st.waitingUsers = (u1, a) :: w)
    (hu : jsGet st.waitingUsers uid = none)
    (hw1 : jsGet w u1 = none)
    (hsa : s ≠ a) :
    (searchChat st s f n).1.waitingUsers = w ∧
    (getSock (searchChat st s f n).1 s).chatPartnerId = some u1 ∧
    (getSock (searchChat st s f n).1 a).chatPartnerId = some uid ∧
    (searchChat st s f n).2 =
      [(s, Ev.searching),
       (s, Ev.chatConnected u1 (getSock st a).username),
       (a, Ev.chatConnected uid (getSock st s).username)] :=
  searchChat_pairs st s a uid u1 w f n h1 hw hu hw1 hsa

/-- Witness for `claim_C6_fifo`: waiting users U1, U2, U3 enqueued in this
order; requester U4 pairs with U1 and the pool becomes U2, U3. -/
theorem claim_C6_fifo_witness :
    (searchChat ⟨[(101, ⟨some 1, some "u1", none⟩), (102, ⟨some 2, some "u2", none⟩),
        (103, ⟨some 3, some "u3", none⟩), (104, ⟨some 4, some "u4", none⟩)],
        [], [(1, 101), (2, 102), (3, 103)]⟩ 104 9 "x").1.waitingUsers =
      [(2, 102), (3, 103)] ∧
    (getSock (searchChat ⟨[(101, ⟨some 1, some "u1", none⟩), (102, ⟨some 2, some "u2", none⟩),
        (103, ⟨some 3, some "u3", none⟩), (104, ⟨some 4, some "u4", none⟩)],
        [], [(1, 101), (2, 102), (3, 103)]⟩ 104 9 "x").1 104).chatPartnerId = some 1 ∧
    (getSock (searchChat ⟨[(101, ⟨some 1, some "u1", none⟩), (102, ⟨some 2, some "u2", none⟩),
        (103, ⟨some 3, some "u3", none⟩), (104, ⟨some 4, some "u4", none⟩)],
        [], [(1, 101), (2, 102), (3, 103)]⟩ 104 9 "x").1 101).chatPartnerId = some 4 ∧
    (searchChat ⟨[(101, ⟨some 1, some "u1", none⟩), (102, ⟨some 2, some "u2", none⟩),
        (103, ⟨some 3, some "u3", none⟩), (104, ⟨some 4, some "u4", none⟩)],
        [], [(1, 101), (2, 102), (3, 103)]⟩ 104 9 "x").2 =
      [(104, Ev.searching),
       (104, Ev.chatConnected 1 (some "u1")),
       (101, Ev.chatConnected 4 (some "u4"))] :=
  claim_C6_fifo _ 104 101 4 1 [(2, 102), (3, 103)] 9 "x" (by decide) (by decide)
    (by decide) (by decide) (by decide)

/-! ### Claim C7 -/

/-- Claim C7: no self-match.  Over any sequence of `search_chat` operations
from the initial state, no `chat_connected` event delivered to a socket
carries a `partnerId` equal to that socket's own `userId` (socket identities
never change across search-only runs, so the final state's `userId` is the
delivery-time one). -/
theorem claim_C7_no_self_match :
    ∀ (ops : List Op), (∀ op ∈ ops, op.isSearch = true) →
    ∀ sid pid u, (sid, Ev.chatConnected pid u) ∈ (run initSt ops).2 →
      (getSock (run initSt ops).1 sid).userId ≠ some pid := by
  intro ops hs
  exact run_no_self ops hs initSt WaitConsistent_initSt

/-- Witness for `claim_C7_no_self_match` on a concrete two-user run. -/
theorem claim_C7_no_self_match_witness :
    (getSock (run initSt [Op.search 0 10 "a", Op.search 1 11 "b"]).1 1).userId ≠
      some 10 :=
  claim_C7_no_self_match [Op.search 0 10 "a", Op.search 1 11 "b"] (by decide)
    1 10 (some "a") (by decide)

/-! ### Claim C8 -/

/-- Claim C8 (as stated) is false in the part promising no residual Session
reference: after 10-11 pair, 12 enqueues and 10 re-pairs with 12, a
disconnect of user 10's socket removes 10 from registry and pool and clears
socket 2's link, but the still-registered socket 1 (user 11) keeps
`chatPartnerId = 10`, a session link referencing the removed user. -/
theorem claim_C8_counterexample :
    jsGet (run initSt [Op.search 0 10 "a", Op.search 1 11 "b", Op.search 2 12 "c",
        Op.search 0 99 "d", Op.disco 0]).1.userSockets 10 = none ∧
    jsGet (run initSt [Op.search 0 10 "a", Op.search 1 11 "b", Op.search 2 12 "c",
        Op.search 0 99 "d", Op.disco 0]).1.waitingUsers 10 = none ∧
    jsGet (run initSt [Op.search 0 10 "a", Op.search 1 11 "b", Op.search 2 12 "c",
        Op.search 0 99 "d", Op.disco 0]).1.userSockets 11 = some 1 ∧
    (getSock (run initSt [Op.search 0 10 "a", Op.search 1 11 "b", Op.search 2 12 "c",
        Op.search 0 99 "d", Op.disco 0]).1 1).chatPartnerId = some 10 := by
  decide

/-- Claim C8, amended: a disconnect removes the socket's `userId` from the
registry and the pool, and the user's current partner (if registered)
receives exactly one `partner_left` and has its link cleared; stale links of
other sockets naming the removed user are not cleared (see counterexample). -/
theorem claim_C8_disconnect_cleanup (st : ServerSt) (s ps : SockId)
    (uid pid : UserId)
    (h1 : (getSock st s).userId = some uid)
    (h2 : (getSock st s).chatPartnerId = some pid)
    (hne : pid ≠ uid)
    (h3 : jsGet st.userSockets pid = some ps) :
    (disconnectH st s).2 = [(ps, Ev.partnerLeft)] ∧
    jsGet (disconnectH st s).1.userSockets uid = none ∧
    jsGet (disconnectH st s).1.waitingUsers uid = none ∧
    (getSock (disconnectH st s).1 ps).chatPartnerId = none := by
  have h4 : jsGet (jsDelete st.userSockets uid) pid = some ps := by
    rw [jsGet_jsDelete_ne _ _ _ hne]
    exact h3
  have heq : disconnectH st s =
      (updSock { st with userSockets := jsDelete st.userSockets uid,
                         waitingUsers := jsDelete st.waitingUsers uid } ps
         (fun sk => { sk with chatPartnerId := none }),
       [(ps, Ev.partnerLeft)]) := by
    simp only [disconnectH, h1, h2]
    rw [h4]
  refine ⟨by rw [heq], ?_, ?_, ?_⟩
  · rw [heq]
    exact jsGet_jsDelete_self _ _
  · rw [heq]
    exact jsGet_jsDelete_self _ _
  · rw [heq]
    rw [getSock_updSock_self]

/-- Witness for `claim_C8_disconnect_cleanup` at a concrete state. -/
theorem claim_C8_disconnect_cleanup_witness :
    (disconnectH ⟨[(0, ⟨some 10, some "a", some 11⟩), (1, ⟨some 11, some "b", some 10⟩)],
        [(10, 0), (11, 1)], [(10, 0)]⟩ 0).2 = [(1, Ev.partnerLeft)] ∧
    jsGet (disconnectH ⟨[(0, ⟨some 10, some "a", some 11⟩), (1, ⟨some 11, some "b", some 10⟩)],
        [(10, 0), (11, 1)], [(10, 0)]⟩ 0).1.userSockets 10 = none ∧
    jsGet (disconnectH ⟨[(0, ⟨some 10, some "a", some 11⟩), (1, ⟨some 11, some "b", some 10⟩)],
        [(10, 0), (11, 1)], [(10, 0)]⟩ 0).1.waitingUsers 10 = none ∧
    (getSock (disconnectH ⟨[(0, ⟨some 10, some "a", some 11⟩), (1, ⟨some 11, some "b", some 10⟩)],
        [(10, 0), (11, 1)], [(10, 0)]⟩ 0).1 1).chatPartnerId = none :=
  claim_C8_disconnect_cleanup _ 0 1 10 11 (by decide) (by decide) (by decide)
    (by decide)

/-! ### Claim C9 -/

/-- Claim C9: a `search_chat` from a never-authenticated socket is not
rejected: the handler assigns the freshly generated anonymous id and name,
registers the socket under that id, emits no error, and then behaves exactly
as a `search_chat` from a socket authenticated with those credentials. -/
theorem claim_C9_auto_auth (st : ServerSt) (s : SockId) (f : UserId) (n : String)
    (h : (getSock st s).userId = none) :
    (∀ f2 n2, searchChat st s f n = searchChat (authenticate st s f n).1 s f2 n2) ∧
    (getSock (searchChat st s f n).1 s).userId = some f ∧
    (getSock (searchChat st s f n).1 s).username = some n ∧
    jsGet (searchChat st s f n).1.userSockets f = some s ∧
    (∀ e ∈ (searchChat st s f n).2, ∀ m, e.2 ≠ Ev.errorEv m) := by
  have hself : (getSock (autoAuth st s f n) s).userId = some f := by
    rw [autoAuth_none h, getSock_record_self]
  have husn : (getSock (autoAuth st s f n) s).username = some n := by
    rw [autoAuth_none h, getSock_record_self]
  have hreg : (autoAuth st s f n).userSockets = jsSet st.userSockets f s := by
    rw [autoAuth_none h]
  have hsc : searchChat st s f n = doSearch (autoAuth st s f n) s f := by
    simp only [searchChat, hself]
  refine ⟨?_, ?_, ?_, ?_, ?_⟩
  · intro f2 n2
    have hB : (authenticate st s f n).1 = autoAuth st s f n := by
      rw [autoAuth_none h]
      rfl
    rw [hB, searchChat_of_some hself f2 n2, hsc]
  · rw [hsc, doSearch_userId]
    exact hself
  · rw [hsc, doSearch_username]
    exact husn
  · rw [hsc, doSearch_userSockets, hreg]
    exact jsGet_jsSet_self _ _ _
  · rw [hsc]
    intro e he m
    rcases doSearch_events _ _ _ e he with h' | ⟨p, u, h'⟩
    · rw [h']
      intro hco
      cases hco
    · rw [h']
      intro hco
      cases hco

/-- Witness for `claim_C9_auto_auth`: anonymous search on the initial state. -/
theorem claim_C9_auto_auth_witness :
    (getSock (searchChat initSt 0 10 "a").1 0).userId = some 10 ∧
    jsGet (searchChat initSt 0 10 "a").1.userSockets 10 = some 0 :=
  ⟨(claim_C9_auto_auth initSt 0 10 "a" (by decide)).2.1,
   (claim_C9_auto_auth initSt 0 10 "a" (by decide)).2.2.2.1⟩

/-! ### Claim C10 -/

theorem disconnectH_registry (st : ServerSt) (s : SockId) (uid : UserId)
    (h1 : (getSock st s).userId = some uid) :
    (disconnectH st s).1.userSockets = jsDelete st.userSockets uid ∧
    (disconnectH st s).1.waitingUsers = jsDelete st.waitingUsers uid := by
  simp only [disconnectH, h1]
  rcases (getSock st s).chatPartnerId with _ | pid
  · exact ⟨rfl, rfl⟩
  · dsimp only
    rcases jsGet (jsDelete st.userSockets uid) pid with _ | ps
    · exact ⟨rfl, rfl⟩
    · exact ⟨rfl, rfl⟩

/-- Claim C10: the disconnect handler deletes the registry and pool entries
keyed by the socket's `userId` unconditionally — even when the registered
socket for that id is a different (second, superseding) connection, which is
thereby unregistered and removed from the pool. -/
theorem claim_C10_superseded_disconnect (st : ServerSt) (s s2 : SockId) (uid : UserId)
    (h1 : (getSock st s).userId = some uid)
    (_h2 : jsGet st.userSockets uid = some s2)
    (_h3 : s2 ≠ s) :
    jsGet (disconnectH st s).1.userSockets uid = none ∧
    jsGet (disconnectH st s).1.waitingUsers uid = none := by
  obtain ⟨hr, hw⟩ := disconnectH_registry st s uid h1
  rw [hr, hw]
  exact ⟨jsGet_jsDelete_self _ _, jsGet_jsDelete_self _ _⟩

/-- Witness for `claim_C10_superseded_disconnect`: sockets 0 and 1 both
authenticate as user 7 (socket 1 supersedes socket 0 in the registry and is
waiting); disconnecting the stale socket 0 unregisters the live socket 1. -/
theorem claim_C10_superseded_disconnect_witness :
    jsGet (disconnectH (run initSt [Op.auth 0 7 "a", Op.auth 1 7 "b",
        Op.search 1 77 "x"]).1 0).1.userSockets 7 = none ∧
    jsGet (disconnectH (run initSt [Op.auth 0 7 "a", Op.auth 1 7 "b",
        Op.search 1 77 "x"]).1 0).1.waitingUsers 7 = none :=
  claim_C10_superseded_disconnect _ 0 1 7 (by decide) (by decide) (by decide)
